import Mathlib

/-!
# Verification of the `useAnimation` core of `@ismael1361/react-use`

Shallow embedding of the animation-orchestration subsystem of the hook
library: the reactive value container, the `timing` step sampling math,
the CSS-margin shorthand parser, the DOM animation helpers, and the
React binding layer of `useAnimation` / `useSharedValues` modelled as
explicit state machines over render/unmount/change events.

JavaScript numbers are modelled as `ℚ`; JS truthiness of a number is
`≠ 0`; an absent (undefined) value is `Option.none`.
-/

namespace ReactUse

/-! ## Reactive value container

Modelled from the spec: the `SharedValue` class of `@ismael1361/animation`
is not vendored in this repository. Per the spec, a container stores a
current value and, on every assignment to `value`, synchronously emits
exactly one "change" notification with no equality short-circuit, no
batching and no debouncing. We record the emitted notifications as a
counter next to the stored value. -/

structure SharedValue (α : Type) where
  value : α
  notifications : ℕ
deriving Repr, DecidableEq

/-- The `value` setter: store `v` and emit one "change" notification. -/
def SharedValue.write {α : Type} (s : SharedValue α) (v : α) : SharedValue α :=
  { value := v, notifications := s.notifications + 1 }

/-! ## Timing step sampling

Modelled from the spec: `timing(target, config)` of `@ismael1361/animation`
is not vendored in this repository. Per the spec, on each tick the step
computes the elapsed time since its own start (accounting for
`config.delay`), normalizes `t = clamp(elapsed/duration, 0, 1)`, applies
the easing function, linearly interpolates between `from` and `to`, and is
terminal once the (delay-adjusted) elapsed time reaches `duration`
(with `duration = 0` the value jumps directly to `to` on the first tick). -/

structure TimingConfig where
  fromValue : ℚ
  toValue : ℚ
  duration : ℚ
  delayMs : ℚ
  easing : ℚ → ℚ

/-- The `linear` easing: the identity on `[0,1]`. -/
def Easing.linear : ℚ → ℚ := fun t => t

/-- Normalized progress `clamp((elapsed - delay)/duration, 0, 1)`. -/
def TimingConfig.progress (cfg : TimingConfig) (elapsed : ℚ) : ℚ :=
  min 1 (max 0 ((elapsed - cfg.delayMs) / cfg.duration))

/-- Whether the step is terminal at `elapsed`: the delay-adjusted elapsed
time has reached the configured duration. -/
def TimingConfig.done (cfg : TimingConfig) (elapsed : ℚ) : Bool :=
  cfg.delayMs + cfg.duration ≤ elapsed

/-- The value the timing step writes at `elapsed`: `to` exactly once
terminal, otherwise `from + (to - from) * easing(progress)`. -/
def TimingConfig.sample (cfg : TimingConfig) (elapsed : ℚ) : ℚ :=
  if cfg.done elapsed then cfg.toValue
  else cfg.fromValue + (cfg.toValue - cfg.fromValue) * cfg.easing (cfg.progress elapsed)

/-- The concrete configuration of the spec's linear-timing test scenario:
`from = 0, to = 1, duration = 1000, easing = linear` (no delay). -/
def linearUnitConfig : TimingConfig :=
  { fromValue := 0, toValue := 1, duration := 1000, delayMs := 0, easing := Easing.linear }

/-! ## `parseMargin` (src/src/hooks/useAnimation/Utils.ts, line 3)

```ts
export const parseMargin = (m: MarginDefinition) =>
  ({ top: m[0], right: m[1] || m[0], bottom: m[2] || m[0], left: m[3] || m[1] || m[0] });
```

`MarginDefinition` is a tuple of one to four numbers; entries past the
first may be absent. JS `a || b` on numbers yields `b` when `a` is absent
or equal to `0` (falsy), else `a`. -/

/-- JS `a || b` where `a` is a possibly-absent number: absent and `0` are
falsy. -/
def jsOr (a : Option ℚ) (b : ℚ) : ℚ :=
  match a with
  | some x => if x = 0 then b else x
  | none => b

/-- A `MarginDefinition` array `[m0]`/`[m0,m1]`/`[m0,m1,m2]`/`[m0,m1,m2,m3]`:
the first entry is always present, the rest are optional. -/
structure MarginDefinition where
  m0 : ℚ
  m1 : Option ℚ
  m2 : Option ℚ
  m3 : Option ℚ
deriving Repr, DecidableEq

structure Margin where
  top : ℚ
  right : ℚ
  bottom : ℚ
  left : ℚ
deriving Repr, DecidableEq

/-- `parseMargin` from Utils.ts (the identical inline copy is used by
`ProcessProps.dom.margin` in index.ts). -/
def parseMargin (m : MarginDefinition) : Margin :=
  { top := m.m0
    right := jsOr m.m1 m.m0
    bottom := jsOr m.m2 m.m0
    left := jsOr m.m3 (jsOr m.m1 m.m0) }

/-! ## DOM animation helpers
(src/src/hooks/useAnimation/DOMAnimationHelpers.ts and the identical
inline helpers of `ProcessProps.dom` in src/src/hooks/useAnimation/index.ts)

Each helper builds a `timing` step from a per-tick callback of the form
`(i) => { if (this.current) this.current.style.X = ...; }` and a config
object `{ from: value, ...conf }` (single-valued helpers) or
`{ from: 0, to: 1, ...conf }` (composite helpers). The element handle
`this.current` is `Option DOMElement`: `none` models a null/detached ref.
A callback invocation is modelled by its observable outcome: the style
write it performs (if any) and whether it returned `true` (the
early-cancel signal). These callbacks have no `return` statement, so they
return `undefined`, never `true`. Colors (`@ismael1361/utils` `Color`) are
modelled as opaque identifiers `ℕ`; a blend write records the source color
and the blend fraction. -/

def DOMElement : Type := Unit

inductive StyleProp
  | opacity | width | height | margin | marginTop | marginBottom
  | marginLeft | marginRight | backgroundColor | backgroundPosition
  | backgroundPositionX | backgroundPositionY | backgroundSize
deriving Repr, DecidableEq

inductive StyleValue
  | num (q : ℚ)
  | quad (top right bottom left : ℚ)
  | pair (x y : ℚ)
  | colorBlend (fromColor : ℕ) (t : ℚ)
deriving Repr, DecidableEq

structure StyleWrite where
  prop : StyleProp
  value : StyleValue
deriving Repr, DecidableEq

/-- Outcome of one invocation of a `timing` target callback: the style
write performed (none when the element handle is null) and whether the
callback returned `true` (requesting early cancellation). -/
structure CbResult where
  write : Option StyleWrite
  cancel : Bool
deriving Repr, DecidableEq

/-- `interpolate(t, [0, 1], [a, b])` from `@ismael1361/utils`: the linear
lerp `a + (b - a) * t` (spec §6: pure, stateless, out of core scope). -/
def interpolate (t a b : ℚ) : ℚ := a + (b - a) * t

/-- `ValueType`/`ValueUnit<number>` from Types.ts: optional `from`,
required `to`, the remaining timing options, and an optional CSS `unit`
(destructured away with default `"px"` before the config is spread). -/
structure ValueCfg where
  fromV : Option ℚ
  toV : ℚ
  duration : Option ℚ
  delayMs : Option ℚ
  unit : Option String
deriving Repr, DecidableEq

/-- The config object a single-valued helper passes to `timing`:
`{ from: value, ...conf }` — the spread overrides the `from: value`
default whenever `conf` carries its own `from`. -/
structure TimingArgs where
  fromV : ℚ
  toV : ℚ
  duration : Option ℚ
  delayMs : Option ℚ
deriving Repr, DecidableEq

/-- `{ from: value, ...conf }`: `conf.from` wins when present, otherwise
the positional `value` argument becomes `from`; every other option passes
through. -/
def mergeFromDefault (value : ℚ) (cfg : ValueCfg) : TimingArgs :=
  { fromV := match cfg.fromV with | some f => f | none => value
    toV := cfg.toV
    duration := cfg.duration
    delayMs := cfg.delayMs }

/-- `{ from: 0, to: 1, ...conf }` for the composite helpers (`margin`,
`backgroundColor`, `backgroundPosition`, `backgroundSize`), whose `from`
and `to` were destructured out of `conf` beforehand. -/
def mergeZeroOne (duration delayMs : Option ℚ) : TimingArgs :=
  { fromV := 0, toV := 1, duration := duration, delayMs := delayMs }

/-- A constructed helper step: the config object passed to `timing` plus
the per-tick target callback. -/
structure HelperStep where
  args : TimingArgs
  cb : ℚ → CbResult

/-- `ValueUnit<MarginDefinition>`: optional `from`/required `to` margin
arrays plus the remaining options. -/
structure MarginCfg where
  fromV : Option MarginDefinition
  toV : MarginDefinition
  duration : Option ℚ
  delayMs : Option ℚ
  unit : Option String
deriving Repr, DecidableEq

/-- `ValueType<string | Color>` with colors as opaque ids. -/
structure ColorCfg where
  fromV : Option ℕ
  toV : ℕ
  duration : Option ℚ
  delayMs : Option ℚ
deriving Repr, DecidableEq

/-- `ValueUnit<[number, number]>`. -/
structure PairCfg where
  fromV : Option (ℚ × ℚ)
  toV : Option (ℚ × ℚ)
  duration : Option ℚ
  delayMs : Option ℚ
  unit : Option String
deriving Repr, DecidableEq

/-- `ValueUnit<[number] | [number, number]>`: pairs whose second entry may
be absent. -/
structure SizeCfg where
  fromV : Option (ℚ × Option ℚ)
  toV : Option (ℚ × Option ℚ)
  duration : Option ℚ
  delayMs : Option ℚ
  unit : Option String
deriving Repr, DecidableEq

namespace DOMAnimationHelpers

/-- `opacity(value, config)`: callback writes `i` to `style.opacity` when
the element is present; config is `{ from: value, ...config }`. -/
def opacity (e : Option DOMElement) (value : ℚ) (cfg : ValueCfg) : HelperStep :=
  { args := mergeFromDefault value cfg
    cb := fun i => { write := e.map fun _ => ⟨.opacity, .num i⟩, cancel := false } }

/-- `width(value, config)`. -/
def width (e : Option DOMElement) (value : ℚ) (cfg : ValueCfg) : HelperStep :=
  { args := mergeFromDefault value cfg
    cb := fun i => { write := e.map fun _ => ⟨.width, .num i⟩, cancel := false } }

/-- `height(value, config)`. -/
def height (e : Option DOMElement) (value : ℚ) (cfg : ValueCfg) : HelperStep :=
  { args := mergeFromDefault value cfg
    cb := fun i => { write := e.map fun _ => ⟨.height, .num i⟩, cancel := false } }

/-- `marginTop(value, config)`. -/
def marginTop (e : Option DOMElement) (value : ℚ) (cfg : ValueCfg) : HelperStep :=
  { args := mergeFromDefault value cfg
    cb := fun i => { write := e.map fun _ => ⟨.marginTop, .num i⟩, cancel := false } }

/-- `marginBottom(value, config)`. -/
def marginBottom (e : Option DOMElement) (value : ℚ) (cfg : ValueCfg) : HelperStep :=
  { args := mergeFromDefault value cfg
    cb := fun i => { write := e.map fun _ => ⟨.marginBottom, .num i⟩, cancel := false } }

/-- `marginLeft(value, config)`. -/
def marginLeft (e : Option DOMElement) (value : ℚ) (cfg : ValueCfg) : HelperStep :=
  { args := mergeFromDefault value cfg
    cb := fun i => { write := e.map fun _ => ⟨.marginLeft, .num i⟩, cancel := false } }

/-- `marginRight(value, config)`. -/
def marginRight (e : Option DOMElement) (value : ℚ) (cfg : ValueCfg) : HelperStep :=
  { args := mergeFromDefault value cfg
    cb := fun i => { write := e.map fun _ => ⟨.marginRight, .num i⟩, cancel := false } }

/-- `backgroundPositionX(value, config)`. -/
def backgroundPositionX (e : Option DOMElement) (value : ℚ) (cfg : ValueCfg) : HelperStep :=
  { args := mergeFromDefault value cfg
    cb := fun i => { write := e.map fun _ => ⟨.backgroundPositionX, .num i⟩, cancel := false } }

/-- `backgroundPositionY(value, config)`. -/
def backgroundPositionY (e : Option DOMElement) (value : ℚ) (cfg : ValueCfg) : HelperStep :=
  { args := mergeFromDefault value cfg
    cb := fun i => { write := e.map fun _ => ⟨.backgroundPositionY, .num i⟩, cancel := false } }

/-- `margin(value, config)`: `fromValue` is
`{ ...parseMargin(value), ...parseMargin(from || value) }` — the second
spread supplies all four fields, so it equals `parseMargin(from ?? value)`
(margin arrays are always truthy); the callback interpolates the four
sides and writes them when the element is present. -/
def margin (e : Option DOMElement) (value : MarginDefinition) (cfg : MarginCfg) : HelperStep :=
  let fromValue := parseMargin (cfg.fromV.getD value)
  let toValue := parseMargin cfg.toV
  { args := mergeZeroOne cfg.duration cfg.delayMs
    cb := fun i =>
      { write := e.map fun _ =>
          ⟨.margin, .quad (interpolate i fromValue.top toValue.top)
            (interpolate i fromValue.right toValue.right)
            (interpolate i fromValue.bottom toValue.bottom)
            (interpolate i fromValue.left toValue.left)⟩
        cancel := false } }

/-- `backgroundColor(value, config)`: `fromColor = new Color(from || value)`
(color strings/objects are truthy); each tick blends `fromColor` toward
`to` by fraction `i` and writes when the element is present. -/
def backgroundColor (e : Option DOMElement) (value : ℕ) (cfg : ColorCfg) : HelperStep :=
  let fromColor := cfg.fromV.getD value
  { args := mergeZeroOne cfg.duration cfg.delayMs
    cb := fun i =>
      { write := e.map fun _ => ⟨.backgroundColor, .colorBlend fromColor i⟩
        cancel := false } }

/-- `backgroundPosition(value, config)`: `fromValue = from || value`,
`toValue = to || value` (position arrays are always truthy); the callback
interpolates x and y and writes when the element is present. -/
def backgroundPosition (e : Option DOMElement) (value : ℚ × ℚ) (cfg : PairCfg) : HelperStep :=
  let fromValue := cfg.fromV.getD value
  let toValue := cfg.toV.getD value
  { args := mergeZeroOne cfg.duration cfg.delayMs
    cb := fun i =>
      { write := e.map fun _ =>
          ⟨.backgroundPosition, .pair (interpolate i fromValue.1 toValue.1)
            (interpolate i fromValue.2 toValue.2)⟩
        cancel := false } }

/-- `backgroundSize(value, config)`:
`fromValue = [from?.[0] || value[0], from?.[1] || from?.[0] || value[1] || value[0]]`
(and symmetrically for `toValue`), where `||` treats an absent entry and
`0` as falsy; the callback interpolates width and height and writes when
the element is present. -/
def backgroundSize (e : Option DOMElement) (value : ℚ × Option ℚ) (cfg : SizeCfg) : HelperStep :=
  let f0 := jsOr (cfg.fromV.map Prod.fst) (jsOr value.2 value.1)
  let f1 := jsOr (cfg.fromV.bind Prod.snd)
    (jsOr (cfg.fromV.map Prod.fst) (jsOr value.2 value.1))
  let t0 := jsOr (cfg.toV.map Prod.fst) (jsOr value.2 value.1)
  let t1 := jsOr (cfg.toV.bind Prod.snd)
    (jsOr (cfg.toV.map Prod.fst) (jsOr value.2 value.1))
  { args := mergeZeroOne cfg.duration cfg.delayMs
    cb := fun i =>
      { write := e.map fun _ =>
          ⟨.backgroundSize, .pair (interpolate i f0 t0) (interpolate i f1 t1)⟩
        cancel := false } }

end DOMAnimationHelpers

/-! ## Driving a callback-targeted timing step across ticks

Modelled from the spec: the scheduler of `@ismael1361/animation` is not
vendored in this repository. Per the spec, a callback-targeted `timing`
step is resumed once per tick; it samples the eased value for the tick's
elapsed time and invokes the callback; a callback returning `true`
cancels the step early ("the sole caller-driven early-exit path outside
durations"); otherwise the step completes when the elapsed time reaches
`delay + duration`. `runTiming` folds this over a list of per-tick
elapsed times and collects every style write the callbacks perform. -/

inductive StepStatus
  | suspended
  | completed
  | cancelled
deriving Repr, DecidableEq

def runTiming (cb : ℚ → CbResult) (cfg : TimingConfig) : List ℚ → StepStatus × List StyleWrite
  | [] => (.suspended, [])
  | e :: rest =>
    let r := cb (cfg.sample e)
    if r.cancel then (.cancelled, r.write.toList)
    else if cfg.done e then (.completed, r.write.toList)
    else
      let k := runTiming cb cfg rest
      (k.1, r.write.toList ++ k.2)

/-- Status of a timing step whose callback never cancels: it suspends
until the first tick whose elapsed time reaches the configured duration
and completes there. -/
def nullStatus (cfg : TimingConfig) : List ℚ → StepStatus
  | [] => .suspended
  | e :: rest => if cfg.done e then .completed else nullStatus cfg rest

/-! ## The `useAnimation` binding layer
(src/src/hooks/useAnimation/index.ts, lines 588-609)

```ts
export const useAnimation = (animation, state = {}, deps = []) => {
  const [render, setRender] = useState({});
  const getRef = useRef(null);
  const gen = useMemo(() => {
    if (getRef.current) { getRef.current.destroy(); }
    getRef.current = create(animation.bind(ProcessProps), state);
    getRef.current.onChange(() => { setRender({}); });
    getRef.current.restart();
    return getRef.current;
  }, deps);
  return useMemo(() => gen, [gen, render]);
};
```

The animation controller (`create`/`restart`/`destroy`/`onChange` of
`@ismael1361/animation`) is modelled from the spec: `create` allocates a
fresh scheduler instance holding the bound generator and the state lifted
into a reactive value group; `restart` begins ticking; `destroy` stops
ticking and releases the tick subscription; `onChange` registers one
coalesced per-tick change subscriber (the hook registers exactly the
`setRender` callback). The user generator function is identified by an
opaque id `ℕ`; `boundToolkit` records that it was bound to `ProcessProps`.
Controllers live in an allocation-ordered store; a controller's store
index is its identity.

The hook is driven by the React events it can observe: a re-render with
unchanged deps (the memo returns its cached controller), a re-render
where a dependency changed (the memo factory re-runs), the live
controller firing its coalesced "change" event, and unmount. The source
registers no `useEffect`, so React runs no cleanup of this hook at
unmount: the unmount transition is the identity on the hook's state. -/

structure Controller where
  genId : ℕ
  boundToolkit : Bool
  state : List (String × ℚ)
  destroyed : Bool
  running : Bool
  subs : ℕ
deriving Repr, DecidableEq

/-- `create(animation.bind(ProcessProps), state)`: a fresh controller,
not yet ticking, with no subscribers, exposing the initial state as its
reactive value mapping. -/
def Controller.create (genId : ℕ) (init : List (String × ℚ)) : Controller :=
  { genId := genId, boundToolkit := true, state := init
    destroyed := false, running := false, subs := 0 }

/-- `destroy()`: stop ticking and release the tick subscription. -/
def Controller.destroy (c : Controller) : Controller :=
  { c with destroyed := true, running := false }

/-- `restart()`: begin (or re-begin) ticking. -/
def Controller.restart (c : Controller) : Controller :=
  { c with running := true }

/-- `onChange(cb)`: register one coalesced per-tick change subscriber. -/
def Controller.subscribe (c : Controller) : Controller :=
  { c with subs := c.subs + 1 }

/-- Replace the controller at index `i` by `f` of it. -/
def updateAt : List Controller → ℕ → (Controller → Controller) → List Controller
  | [], _, _ => []
  | c :: cs, 0, f => f c :: cs
  | c :: cs, Nat.succ n, f => c :: updateAt cs n f

/-- Number of controllers not yet destroyed. -/
def liveCount (store : List Controller) : ℕ :=
  (store.filter fun c => !c.destroyed).length

structure HookState where
  store : List Controller
  refCurrent : Option ℕ
  renderCount : ℕ
deriving Repr, DecidableEq

/-- The `useMemo` factory body (index.ts lines 592-606): destroy the
previous controller if `getRef.current` holds one, then allocate a fresh
controller via `create`, register the `setRender` change subscriber, call
`restart()`, and leave `getRef.current` pointing at the new controller
(which the memo returns). -/
def memoBody (genId : ℕ) (init : List (String × ℚ)) (s : HookState) : HookState :=
  let store :=
    match s.refCurrent with
    | some i => updateAt s.store i Controller.destroy
    | none => s.store
  let id := store.length
  let store := store ++ [Controller.create genId init]
  let store := updateAt store id Controller.subscribe
  let store := updateAt store id Controller.restart
  { store := store, refCurrent := some id, renderCount := s.renderCount }

/-- The live controller fires its coalesced per-tick "change" event: each
of its registered subscribers runs, and every subscriber the hook
registered is `() => setRender({})`, so the render counter advances by
the subscriber count. A destroyed controller has released its
subscriptions and notifies nobody. -/
def fireChange (s : HookState) : HookState :=
  match s.refCurrent with
  | some i =>
    match s.store[i]? with
    | some c => if c.destroyed then s else { s with renderCount := s.renderCount + c.subs }
    | none => s
  | none => s

inductive HookEvent
  | renderKeepDeps
  | renderNewDeps
  | changeFired
  | unmount
deriving Repr, DecidableEq

/-- One observable event of the hook's lifetime. Unmount is the identity:
the source registers no `useEffect` cleanup, so React tears nothing down. -/
def hookStep (genId : ℕ) (init : List (String × ℚ)) (s : HookState) : HookEvent → HookState
  | .renderNewDeps => memoBody genId init s
  | .renderKeepDeps => s
  | .changeFired => fireChange s
  | .unmount => s

/-- The initial render: `getRef.current` starts empty and the memo
factory runs. -/
def mountAnimation (genId : ℕ) (init : List (String × ℚ)) : HookState :=
  memoBody genId init { store := [], refCurrent := none, renderCount := 0 }

/-- A whole hook lifetime: mount followed by a sequence of events. -/
def runUseAnimation (genId : ℕ) (init : List (String × ℚ)) (evts : List HookEvent) : HookState :=
  evts.foldl (hookStep genId init) (mountAnimation genId init)

/-! ## The `useSharedValues` hook (src/unnamed/part_004, lines 136-149)

```ts
export const useSharedValues = (initialValues) => {
  const [render, setRender] = useState({});
  const ref = useRef(new SharedValues(initialValues));
  useEffect(() => {
    const event = ref.current.on("change", () => { setRender({}); });
    return () => event.stop();
  }, []);
  return useMemo(() => ref.current.current, [render]);
};
```

The `SharedValues` group is modelled from the spec: it lifts every field
of the initial object into a reactive value container, fans each field's
"change" into one group-level "change" per write (no equality
short-circuit), and `on("change", cb)` returns a handle whose `stop()`
removes the subscription. The hook's state tracks the per-field current
values, the group "change" emission count, the number of active hook
subscriptions (1 after the mount effect, 0 after the unmount cleanup ran
`event.stop()`), and how many re-renders `setRender` requested. -/

def getAssoc : List (String × ℚ) → String → Option ℚ
  | [], _ => none
  | (k, v) :: rest, key => if k = key then some v else getAssoc rest key

def setAssoc : List (String × ℚ) → String → ℚ → List (String × ℚ)
  | [], _, _ => []
  | (k, v) :: rest, key, x => if k = key then (k, x) :: rest else (k, v) :: setAssoc rest key x

structure SVHookState where
  values : List (String × ℚ)
  groupNotifications : ℕ
  subCount : ℕ
  renderCount : ℕ
deriving Repr, DecidableEq

inductive SVEvent
  | writeField (k : String) (v : ℚ)
  | unmount
deriving Repr, DecidableEq

/-- Mount: the group holds the initial values and the mount effect has
registered exactly one group "change" subscription (the `setRender`
callback). -/
def svMount (init : List (String × ℚ)) : SVHookState :=
  { values := init, groupNotifications := 0, subCount := 1, renderCount := 0 }

/-- One event: assigning `state.k.value = v` stores `v`, the field
container notifies, the group fans that in as one group "change", and
each active hook subscription requests a re-render; unmount runs the
effect cleanup `event.stop()`, removing the hook's subscription. -/
def svStep (s : SVHookState) : SVEvent → SVHookState
  | .writeField k v =>
    { values := setAssoc s.values k v
      groupNotifications := s.groupNotifications + 1
      subCount := s.subCount
      renderCount := s.renderCount + s.subCount }
  | .unmount => { s with subCount := s.subCount - 1 }

def runUseSharedValues (init : List (String × ℚ)) (evts : List SVEvent) : SVHookState :=
  evts.foldl svStep (svMount init)

end ReactUse

namespace ReactUse

/-- C6: a `timing` step with `from = 0`, `to = 1`, `duration = 1000` and
linear easing samples to `0` at elapsed `0`, to exactly `1/2` at elapsed
`500` (hence within any floating tolerance of `0.5`), and to exactly `1`,
with the step terminal, at every elapsed time of at least `1000`. -/
theorem timing_linear_unit_profile (e : ℚ) (he : 1000 ≤ e) :
    linearUnitConfig.sample 0 = 0 ∧
    linearUnitConfig.sample 500 = 1/2 ∧
    linearUnitConfig.sample e = 1 ∧
    linearUnitConfig.done e = true := by
  have hd : linearUnitConfig.done e = true := by
    simp only [TimingConfig.done, linearUnitConfig, decide_eq_true_eq]
    linarith
  refine ⟨?_, ?_, ?_, hd⟩
  · norm_num [linearUnitConfig, TimingConfig.sample, TimingConfig.done,
      TimingConfig.progress, Easing.linear]
  · norm_num [linearUnitConfig, TimingConfig.sample, TimingConfig.done,
      TimingConfig.progress, Easing.linear]
  · have ht : linearUnitConfig.toValue = 1 := rfl
    simp [TimingConfig.sample, hd, ht]

/-- Witness for `timing_linear_unit_profile` at `e = 1000`. -/
theorem timing_linear_unit_profile_witness :
    linearUnitConfig.sample 1000 = 1 :=
  (timing_linear_unit_profile 1000 (by norm_num)).2.2.1

/-- C7: every assignment to a reactive value container's `value`
property stores the value and fires exactly one change notification;
in particular re-assigning the current value (a structurally equal
write) still notifies — there is no equality short-circuit, batching or
debouncing. -/
theorem sharedValue_every_write_notifies (α : Type) (s : SharedValue α) (v : α) :
    (s.write v).notifications = s.notifications + 1 ∧
    (s.write v).value = v ∧
    (s.write s.value).notifications = s.notifications + 1 :=
  ⟨rfl, rfl, rfl⟩

/-- C8: `parseMargin` expands a one-element margin to all four sides; on
2-to-4-element margins whose entries past the first are all nonzero it
yields `top = m0`, `right = m1`, `bottom = m2` (else `m0`), `left = m3`
(else `m1`, else `m0`); and because missing positions are filled with the
JS `||` operator, a provided `0` entry is treated as absent:
`parseMargin [10, 0]` yields `right = 10` and `left = 10`. -/
theorem parseMargin_shorthand_expansion (t m0 m1 : ℚ) (m2 m3 : Option ℚ)
    (h1 : m1 ≠ 0) (h2 : ∀ x ∈ m2, x ≠ 0) (h3 : ∀ x ∈ m3, x ≠ 0) :
    parseMargin ⟨t, none, none, none⟩ = ⟨t, t, t, t⟩ ∧
    parseMargin ⟨m0, some m1, m2, m3⟩ = ⟨m0, m1, m2.getD m0, m3.getD m1⟩ ∧
    parseMargin ⟨10, some 0, none, none⟩ = ⟨10, 10, 10, 10⟩ := by
  refine ⟨rfl, ?_, by norm_num [parseMargin, jsOr]⟩
  cases m2 <;> cases m3 <;>
    simp_all [parseMargin, jsOr, Option.mem_def]

/-- Witness for `parseMargin_shorthand_expansion` at `[1, 2, 3, 4]`. -/
theorem parseMargin_shorthand_expansion_witness :
    parseMargin ⟨1, some 2, some 3, some 4⟩ = ⟨1, 2, 3, 4⟩ := by
  have h := (parseMargin_shorthand_expansion 1 1 2 (some 3) (some 4)
    (by norm_num)
    (by intro x hx; rw [Option.mem_def, Option.some_inj] at hx; subst hx; norm_num)
    (by intro x hx; rw [Option.mem_def, Option.some_inj] at hx; subst hx; norm_num)).2.1
  simpa using h

/-- C9: for each single-valued DOM helper (`opacity`, `width`, `height`,
`marginTop`, `marginBottom`, `marginLeft`, `marginRight`,
`backgroundPositionX`, `backgroundPositionY`), a `from` carried by the
config overrides the positional `value` argument (the spread follows the
`{from: value}` default), and `value` becomes `from` exactly when the
config carries no `from`. -/
theorem dom_single_value_config_from (e : Option DOMElement) (value f : ℚ)
    (cfg cfg0 : ValueCfg) (hf : cfg.fromV = some f) (h0 : cfg0.fromV = none) :
    ((DOMAnimationHelpers.opacity e value cfg).args.fromV = f ∧
     (DOMAnimationHelpers.width e value cfg).args.fromV = f ∧
     (DOMAnimationHelpers.height e value cfg).args.fromV = f ∧
     (DOMAnimationHelpers.marginTop e value cfg).args.fromV = f ∧
     (DOMAnimationHelpers.marginBottom e value cfg).args.fromV = f ∧
     (DOMAnimationHelpers.marginLeft e value cfg).args.fromV = f ∧
     (DOMAnimationHelpers.marginRight e value cfg).args.fromV = f ∧
     (DOMAnimationHelpers.backgroundPositionX e value cfg).args.fromV = f ∧
     (DOMAnimationHelpers.backgroundPositionY e value cfg).args.fromV = f) ∧
    ((DOMAnimationHelpers.opacity e value cfg0).args.fromV = value ∧
     (DOMAnimationHelpers.width e value cfg0).args.fromV = value ∧
     (DOMAnimationHelpers.height e value cfg0).args.fromV = value ∧
     (DOMAnimationHelpers.marginTop e value cfg0).args.fromV = value ∧
     (DOMAnimationHelpers.marginBottom e value cfg0).args.fromV = value ∧
     (DOMAnimationHelpers.marginLeft e value cfg0).args.fromV = value ∧
     (DOMAnimationHelpers.marginRight e value cfg0).args.fromV = value ∧
     (DOMAnimationHelpers.backgroundPositionX e value cfg0).args.fromV = value ∧
     (DOMAnimationHelpers.backgroundPositionY e value cfg0).args.fromV = value) := by
  simp [DOMAnimationHelpers.opacity, DOMAnimationHelpers.width,
    DOMAnimationHelpers.height, DOMAnimationHelpers.marginTop,
    DOMAnimationHelpers.marginBottom, DOMAnimationHelpers.marginLeft,
    DOMAnimationHelpers.marginRight, DOMAnimationHelpers.backgroundPositionX,
    DOMAnimationHelpers.backgroundPositionY, mergeFromDefault, hf, h0]

/-- Witness for `dom_single_value_config_from`: `opacity(1, {from: 2, to: 3})`
builds a step starting from `2`, not from the positional `1`. -/
theorem dom_single_value_config_from_witness :
    (DOMAnimationHelpers.opacity (none : Option DOMElement) 1
      ⟨some 2, 3, none, none, none⟩).args.fromV = 2 :=
  (dom_single_value_config_from none 1 2 ⟨some 2, 3, none, none, none⟩
    ⟨none, 3, none, none, none⟩ rfl rfl).1.1

/-- Running a timing step whose callback never writes and never cancels
performs no writes and has the inert status `nullStatus`. -/
theorem runTiming_inert (cb : ℚ → CbResult) (h : ∀ i, cb i = ⟨none, false⟩)
    (cfg : TimingConfig) (ticks : List ℚ) :
    runTiming cb cfg ticks = (nullStatus cfg ticks, []) := by
  induction ticks with
  | nil => rfl
  | cons e rest ih =>
    simp only [runTiming, nullStatus, h, Bool.false_eq_true, if_false, ih]
    cases hd : cfg.done e <;> simp [hd]

/-- The inert status is never `cancelled`. -/
theorem nullStatus_ne_cancelled (cfg : TimingConfig) (ticks : List ℚ) :
    nullStatus cfg ticks ≠ StepStatus.cancelled := by
  induction ticks with
  | nil => simp [nullStatus]
  | cons e rest ih =>
    cases hd : cfg.done e <;> simp [nullStatus, hd, ih]

/-- The inert status is `completed` exactly when some tick's elapsed time
reaches the configured duration. -/
theorem nullStatus_completed_iff (cfg : TimingConfig) (ticks : List ℚ) :
    nullStatus cfg ticks = StepStatus.completed ↔ ∃ t ∈ ticks, cfg.done t = true := by
  induction ticks with
  | nil => simp [nullStatus]
  | cons e rest ih =>
    cases hd : cfg.done e <;> simp [nullStatus, hd, ih]

/-- C10: when the element reference resolves to null, every DOM helper's
per-tick callback performs no style write and (having no `return`
statement) never returns `true`, so driving the resulting timing step
over any tick sequence produces no writes, is never cancelled early, and
completes exactly when a tick's elapsed time reaches the configured
duration — the step runs for its full configured duration. -/
theorem dom_helpers_null_ref_safe
    (v : ℚ) (c : ValueCfg) (mv : MarginDefinition) (mc : MarginCfg)
    (cv : ℕ) (cc : ColorCfg) (pv : ℚ × ℚ) (pc : PairCfg)
    (sv : ℚ × Option ℚ) (sc : SizeCfg)
    (cfg : TimingConfig) (ticks : List ℚ) :
    runTiming (DOMAnimationHelpers.opacity none v c).cb cfg ticks = (nullStatus cfg ticks, []) ∧
    runTiming (DOMAnimationHelpers.width none v c).cb cfg ticks = (nullStatus cfg ticks, []) ∧
    runTiming (DOMAnimationHelpers.height none v c).cb cfg ticks = (nullStatus cfg ticks, []) ∧
    runTiming (DOMAnimationHelpers.marginTop none v c).cb cfg ticks = (nullStatus cfg ticks, []) ∧
    runTiming (DOMAnimationHelpers.marginBottom none v c).cb cfg ticks = (nullStatus cfg ticks, []) ∧
    runTiming (DOMAnimationHelpers.marginLeft none v c).cb cfg ticks = (nullStatus cfg ticks, []) ∧
    runTiming (DOMAnimationHelpers.marginRight none v c).cb cfg ticks = (nullStatus cfg ticks, []) ∧
    runTiming (DOMAnimationHelpers.backgroundPositionX none v c).cb cfg ticks = (nullStatus cfg ticks, []) ∧
    runTiming (DOMAnimationHelpers.backgroundPositionY none v c).cb cfg ticks = (nullStatus cfg ticks, []) ∧
    runTiming (DOMAnimationHelpers.margin none mv mc).cb cfg ticks = (nullStatus cfg ticks, []) ∧
    runTiming (DOMAnimationHelpers.backgroundColor none cv cc).cb cfg ticks = (nullStatus cfg ticks, []) ∧
    runTiming (DOMAnimationHelpers.backgroundPosition none pv pc).cb cfg ticks = (nullStatus cfg ticks, []) ∧
    runTiming (DOMAnimationHelpers.backgroundSize none sv sc).cb cfg ticks = (nullStatus cfg ticks, []) ∧
    nullStatus cfg ticks ≠ StepStatus.cancelled ∧
    (nullStatus cfg ticks = StepStatus.completed ↔ ∃ t ∈ ticks, cfg.done t = true) := by
  refine ⟨?_, ?_, ?_, ?_, ?_, ?_, ?_, ?_, ?_, ?_, ?_, ?_, ?_,
    nullStatus_ne_cancelled cfg ticks, nullStatus_completed_iff cfg ticks⟩
  all_goals exact runTiming_inert _ (fun _ => rfl) cfg ticks

/-- The controller the memo factory leaves live: freshly created from the
bound generator and the initial state, with the single `setRender`
subscriber registered and `restart()` called. -/
def liveController (g : ℕ) (init : List (String × ℚ)) : Controller :=
  { genId := g, boundToolkit := true, state := init
    destroyed := false, running := true, subs := 1 }

/-- Reachability invariant of the `useAnimation` hook state: the store is
a list of destroyed former controllers (each still recording its one
subscriber) followed by the single live controller, and `getRef.current`
points at the live one. -/
def HookInv (g : ℕ) (init : List (String × ℚ)) (s : HookState) : Prop :=
  ∃ pre, s.store = pre ++ [liveController g init] ∧
    s.refCurrent = some pre.length ∧
    ∀ c ∈ pre, c.destroyed = true ∧ c.subs = 1

theorem updateAt_append_singleton (xs : List Controller) (x : Controller)
    (f : Controller → Controller) :
    updateAt (xs ++ [x]) xs.length f = xs ++ [f x] := by
  induction xs with
  | nil => rfl
  | cons a as ih => simp [updateAt, ih]

theorem getElem_append_singleton (xs : List Controller) (x : Controller) :
    (xs ++ [x])[xs.length]? = some x := by
  induction xs with
  | nil => rfl
  | cons a as ih => simp [ih]

theorem hookInv_mount (g : ℕ) (init : List (String × ℚ)) :
    HookInv g init (mountAnimation g init) :=
  ⟨[], rfl, rfl, by simp⟩

theorem hookInv_step (g : ℕ) (init : List (String × ℚ)) (s : HookState)
    (h : HookInv g init s) (e : HookEvent) :
    HookInv g init (hookStep g init s e) := by
  obtain ⟨pre, hstore, href, hpre⟩ := h
  cases e with
  | renderKeepDeps => exact ⟨pre, hstore, href, hpre⟩
  | unmount => exact ⟨pre, hstore, href, hpre⟩
  | changeFired =>
    have hfc : (fireChange s).store = s.store ∧ (fireChange s).refCurrent = s.refCurrent := by
      rcases hr : s.refCurrent with _ | i
      · simp [fireChange, hr]
      · rcases hg : s.store[i]? with _ | c
        · simp [fireChange, hr, hg]
        · cases hd : c.destroyed <;> simp [fireChange, hr, hg, hd]
    exact ⟨pre, hfc.1 ▸ hstore, hfc.2 ▸ href, hpre⟩
  | renderNewDeps =>
    refine ⟨pre ++ [Controller.destroy (liveController g init)], ?_, ?_, ?_⟩
    · show (memoBody g init s).store = _
      simp only [memoBody, href, hstore, updateAt_append_singleton]
      rfl
    · show (memoBody g init s).refCurrent = _
      simp [memoBody, href, hstore, updateAt_append_singleton]
    · intro c hc
      rcases List.mem_append.mp hc with hm | hm
      · exact hpre c hm
      · rw [List.mem_singleton] at hm
        subst hm
        exact ⟨rfl, rfl⟩

theorem hookInv_run (g : ℕ) (init : List (String × ℚ)) (evts : List HookEvent) :
    HookInv g init (runUseAnimation g init evts) := by
  have main : ∀ (l : List HookEvent) (s : HookState), HookInv g init s →
      HookInv g init (l.foldl (hookStep g init) s) := by
    intro l
    induction l with
    | nil => exact fun s h => h
    | cons e rest ih => exact fun s h => ih _ (hookInv_step g init s h e)
  exact main evts _ (hookInv_mount g init)

theorem liveCount_inv (g : ℕ) (init : List (String × ℚ)) (pre : List Controller)
    (hpre : ∀ c ∈ pre, c.destroyed = true ∧ c.subs = 1) :
    liveCount (pre ++ [liveController g init]) = 1 := by
  have hnil : pre.filter (fun c => !c.destroyed) = [] := by
    rw [List.filter_eq_nil_iff]
    intro c hc
    simp [(hpre c hc).1]
  simp [liveCount, List.filter_append, hnil, liveController]

/-- C1: over every sequence of hook events, at most one controller in the
hook's store is live; and when a dependency change makes the memo factory
re-run, the controller that `getRef.current` held is destroyed and
replaced by a freshly created distinct instance, so at most one
controller is live afterwards as well — the previous instance's tick
subscription is never leaked. -/
theorem useAnimation_at_most_one_live (g : ℕ) (init : List (String × ℚ))
    (evts : List HookEvent) (i : ℕ)
    (hi : (runUseAnimation g init evts).refCurrent = some i) :
    liveCount (runUseAnimation g init evts).store ≤ 1 ∧
    liveCount (hookStep g init (runUseAnimation g init evts) HookEvent.renderNewDeps).store ≤ 1 ∧
    (∃ c, (hookStep g init (runUseAnimation g init evts) HookEvent.renderNewDeps).store[i]?
        = some c ∧ c.destroyed = true) ∧
    (hookStep g init (runUseAnimation g init evts) HookEvent.renderNewDeps).refCurrent
      = some (i + 1) := by
  obtain ⟨pre, hstore, href, hpre⟩ := hookInv_run g init evts
  have hi' : i = pre.length := by
    rw [href] at hi
    exact (Option.some_inj.mp hi).symm
  have hsteq : (memoBody g init (runUseAnimation g init evts)).store
      = pre ++ [Controller.destroy (liveController g init)] ++ [liveController g init] := by
    simp only [memoBody, href, hstore, updateAt_append_singleton]
    rfl
  have hreq : (memoBody g init (runUseAnimation g init evts)).refCurrent
      = some (pre.length + 1) := by
    simp [memoBody, href, hstore, updateAt_append_singleton]
  refine ⟨?_, ?_, ?_, ?_⟩
  · rw [hstore]
    exact le_of_eq (liveCount_inv g init pre hpre)
  · show liveCount (memoBody g init (runUseAnimation g init evts)).store ≤ 1
    rw [hsteq]
    refine le_of_eq (liveCount_inv g init (pre ++ [Controller.destroy (liveController g init)]) ?_)
    intro c hc
    rcases List.mem_append.mp hc with hm | hm
    · exact hpre c hm
    · rw [List.mem_singleton] at hm
      subst hm
      exact ⟨rfl, rfl⟩
  · refine ⟨Controller.destroy (liveController g init), ?_, rfl⟩
    show (memoBody g init (runUseAnimation g init evts)).store[i]? = _
    rw [hsteq, hi', List.getElem?_append_left (by simp), getElem_append_singleton]
  · show (memoBody g init (runUseAnimation g init evts)).refCurrent = some (i + 1)
    rw [hreq, hi']

/-- Witness for `useAnimation_at_most_one_live`: a freshly mounted hook. -/
theorem useAnimation_at_most_one_live_witness :
    liveCount (runUseAnimation 0 [] []).store ≤ 1 :=
  (useAnimation_at_most_one_live 0 [] [] 0 rfl).1

/-- C2 (refuting the claimed behavior): the source of `useAnimation`
registers no `useEffect` cleanup, so React runs none of the hook's code at
unmount; after mounting and unmounting, the controller is still live and
still running — `destroy()` was never invoked as a teardown signal. -/
theorem useAnimation_unmount_keeps_controller_running :
    ∃ c, (runUseAnimation 0 [("opacity", 0)] [HookEvent.unmount]).store[0]? = some c ∧
      c.destroyed = false ∧ c.running = true :=
  ⟨_, rfl, rfl, rfl⟩

/-- C3: every controller the hook ever created carries exactly one
`onChange` subscriber (the `setRender` re-render trigger), and each
coalesced per-tick "change" event fired by the live controller advances
the hook's render-request count by exactly one. -/
theorem useAnimation_change_triggers_rerender (g : ℕ) (init : List (String × ℚ))
    (evts : List HookEvent) :
    (∀ c ∈ (runUseAnimation g init evts).store, c.subs = 1) ∧
    (runUseAnimation g init (evts ++ [HookEvent.changeFired])).renderCount
      = (runUseAnimation g init evts).renderCount + 1 := by
  obtain ⟨pre, hstore, href, hpre⟩ := hookInv_run g init evts
  constructor
  · intro c hc
    rw [hstore] at hc
    rcases List.mem_append.mp hc with hm | hm
    · exact (hpre c hm).2
    · rw [List.mem_singleton] at hm
      subst hm
      rfl
  · have hfold : runUseAnimation g init (evts ++ [HookEvent.changeFired])
        = fireChange (runUseAnimation g init evts) := by
      simp [runUseAnimation, List.foldl_append, hookStep]
    rw [hfold]
    have hget : (runUseAnimation g init evts).store[pre.length]? = some (liveController g init) := by
      rw [hstore, getElem_append_singleton]
    simp [fireChange, href, hget, liveController]

/-- Witness for `useAnimation_change_triggers_rerender`: one change event
after mount requests exactly one re-render. -/
theorem useAnimation_change_triggers_rerender_witness :
    (runUseAnimation 0 [] [HookEvent.changeFired]).renderCount
      = (runUseAnimation 0 [] []).renderCount + 1 := by
  have h := (useAnimation_change_triggers_rerender 0 [] []).2
  simpa using h

/-- C4: mounting the hook builds exactly one controller via `create`,
holding the user generator bound to the `ProcessProps` toolkit and the
initial state lifted into the per-field reactive value mapping, with
`restart()` already called (it is running) and the single `setRender`
subscriber registered; `getRef.current` points at it and it is what the
hook returns. -/
theorem useAnimation_mount_create_restart (g : ℕ) (init : List (String × ℚ)) :
    (mountAnimation g init).store
      = [{ genId := g, boundToolkit := true, state := init,
           destroyed := false, running := true, subs := 1 }] ∧
    (mountAnimation g init).refCurrent = some 0 ∧
    (mountAnimation g init).renderCount = 0 :=
  ⟨rfl, rfl, rfl⟩

/-- `getAssoc` after `setAssoc` at an existing key reads the new value. -/
theorem getAssoc_setAssoc (l : List (String × ℚ)) (k : String) (v w : ℚ)
    (h : getAssoc l k = some w) : getAssoc (setAssoc l k v) k = some v := by
  induction l with
  | nil => simp [getAssoc] at h
  | cons p rest ih =>
    obtain ⟨a, b⟩ := p
    by_cases hk : a = k
    · simp [getAssoc, setAssoc, hk]
    · simp only [getAssoc, setAssoc, hk, if_false] at h ⊢
      exact ih h

/-- C5: `useSharedValues` lifts every field of the initial object into a
reactive value container (each field reads back its initial value),
registers exactly one group "change" subscription whose callback requests
a re-render, so a field write (through the field's `value` property)
fires one group notification and one re-render request and subsequent
reads see the written value; the unmount cleanup removes the subscription
via the handle's `stop()`. -/
theorem useSharedValues_reactive_binding (init : List (String × ℚ)) (k : String) (v w : ℚ)
    (hk : getAssoc init k = some w) :
    (svMount init).subCount = 1 ∧
    getAssoc (svMount init).values k = some w ∧
    (svStep (svMount init) (SVEvent.writeField k v)).groupNotifications
      = (svMount init).groupNotifications + 1 ∧
    (svStep (svMount init) (SVEvent.writeField k v)).renderCount
      = (svMount init).renderCount + 1 ∧
    getAssoc (svStep (svMount init) (SVEvent.writeField k v)).values k = some v ∧
    (svStep (svMount init) SVEvent.unmount).subCount = 0 := by
  exact ⟨rfl, hk, rfl, rfl, getAssoc_setAssoc init k v w hk, rfl⟩

/-- Witness for `useSharedValues_reactive_binding`, mirroring the
`useSharedValues` test: initial `{x: 0}`, write `x.value = 10`, read `10`. -/
theorem useSharedValues_reactive_binding_witness :
    getAssoc (svStep (svMount [("x", 0)]) (SVEvent.writeField "x" 10)).values "x" = some 10 :=
  (useSharedValues_reactive_binding [("x", 0)] "x" 10 0 (by simp [getAssoc])).2.2.2.2.1

end ReactUse
